import Mathlib

/-!
# Verification of the data-wrangling pipeline (`src/data_processing/wrangler.py`)

A shallow embedding of the `DataWrangler` transform pipeline: ingestion with
full-row deduplication, row filtering (category exclusion, required-column
dropna, key-column near-duplicate removal), currency normalization against a
fixed exchange-rate table, percentile-based outlier trimming, and the
wrangle/save control flow.

Modelling conventions:
* A cell value is a string, a rational number, or the missing marker `na`
  (pandas `NaN`). Python floats are modelled as rationals ℚ.
* A data frame is a column-name list together with rows of values aligned
  positionally with the columns (the `id` index column of the source is not a
  data column, matching `index_col = "id"`).
* Comparisons against `NaN` are `false` (numpy semantics), and
  `np.percentile` of a population containing `NaN` is `NaN`, while
  `np.percentile` of an empty population raises; fallible steps return
  `Except`.
-/

namespace Wrangler

/-- A single cell of the tabular dataset: a string, a number, or missing. -/
inductive Value where
  | str (s : String)
  | num (q : ℚ)
  | na
deriving DecidableEq, Repr

/-- A record (row) of the dataset: values aligned positionally with the
column-name list of its data frame. -/
abbrev Row := List Value

/-- A data frame: named columns and rows of cells, positionally aligned. -/
structure DataFrame where
  cols : List String
  rows : List Row
deriving DecidableEq, Repr

/-- Look up the cell of row `r` at the column named `c` (first matching
column label; `na` when the label is absent or the row is short). -/
def cell (cols : List String) (r : Row) (c : String) : Value :=
  match cols.indexOf? c with
  | some i => r.getD i Value.na
  | none   => Value.na

/-! ## Keep-first deduplication

`pandas.drop_duplicates(keep='first')`, with an optional key projection
(`subset=`): scan left to right, keep a row iff its key has not been seen. -/

/-- Auxiliary scan for keep-first deduplication: `seen` holds the keys of the
rows already kept. -/
def dedupByAux {α β : Type} [DecidableEq β] (f : α → β) : List α → List β → List α
  | [], _ => []
  | x :: xs, seen =>
      if f x ∈ seen then dedupByAux f xs seen
      else x :: dedupByAux f xs (f x :: seen)

/-- Keep-first deduplication of a list by the key function `f`
(`drop_duplicates(subset = keys, keep = 'first')`; `f = id` is full-row
deduplication). -/
def dedupBy {α β : Type} [DecidableEq β] (f : α → β) (xs : List α) : List α :=
  dedupByAux f xs []

/-! ## Currency conversion (`DataWrangler._convert_to_usd`, lines 147-166)

The fixed 2020 average exchange-rate table, and the row-wise conversion: for a
known code the amount is multiplied by the rate; the Python function has no
`else` branch, so an unknown code implicitly returns `None`. -/

/-- The fixed exchange-rate table embedded in `_convert_to_usd`. -/
def currency_dict : List (String × ℚ) :=
  [("USD", 1), ("PEN", 0.2863), ("ARS", 0.0143), ("UYU", 0.0239), ("COP", 0.00027)]

/-- `_convert_to_usd(amount, currency_code)`: multiply by the table rate when
the code is a key of the table, otherwise fall off the end of the function
(Python `None`, modelled as `none`). -/
def convert_to_usd (amount : ℚ) (currency_code : String) : Option ℚ :=
  match currency_dict.lookup currency_code with
  | some rate => some (amount * rate)
  | none => none

/-- Row-wise cell produced by
`df.apply(lambda x: self._convert_to_usd(x["price"], x["currency"]), axis=1)`:
a numeric price with a string code is converted (Python `None` lands in the
float column as `NaN`, i.e. `na`); a missing or non-numeric price, or a
missing code, yields `NaN`. -/
def convertCell (cols : List String) (r : Row) : Value :=
  match cell cols r "price", cell cols r "currency" with
  | Value.num a, Value.str c =>
      match convert_to_usd a c with
      | some v => Value.num v
      | none => Value.na
  | _, _ => Value.na

/-! ## Percentiles (`np.percentile`, linear interpolation) -/

/-- `np.percentile(xs, q)` on a nonempty list of rationals: sort ascending,
take `h = q * (n - 1) / 100` and linearly interpolate between the values at
positions `⌊h⌋` and `⌈h⌉` (returns `0` on the empty list, a case the callers
rule out separately). -/
def percentile (xs : List ℚ) (q : ℚ) : ℚ :=
  let s := xs.insertionSort (· ≤ ·)
  let h : ℚ := q * ((s.length : ℚ) - 1) / 100
  let lo := s.getD (⌊h⌋).toNat 0
  let hi := s.getD (⌈h⌉).toNat 0
  lo + (h - (⌊h⌋ : ℚ)) * (hi - lo)

/-- Is this cell a number? -/
def Value.isNum : Value → Bool
  | Value.num _ => true
  | _ => false

/-- Extract the rational of a numeric cell (`0` otherwise). -/
def Value.toQ : Value → ℚ
  | Value.num q => q
  | _ => 0

/-- `np.percentile` over a pandas float column: raises on an empty
population, propagates `NaN` when any value is missing, and otherwise is the
rational percentile. A non-numeric (object-dtype) population raises. -/
def percentileV (vals : List Value) (q : ℚ) : Except String Value :=
  if vals = [] then Except.error "IndexError: percentile of an empty array"
  else if ¬ vals.all (fun v => v.isNum || v == Value.na) then
    Except.error "TypeError: non-numeric dtype"
  else if Value.na ∈ vals then Except.ok Value.na
  else Except.ok (Value.num (percentile (vals.map Value.toQ) q))

/-- Elementwise `>=` of a float column against a scalar: `false` whenever
either side is `NaN` (numpy comparison semantics). -/
def cmpGeV (a b : Value) : Bool :=
  match a, b with
  | Value.num x, Value.num y => decide (y ≤ x)
  | _, _ => false

/-- Elementwise `<=` of a float column against a scalar: `false` whenever
either side is `NaN`. -/
def cmpLeV (a b : Value) : Bool :=
  match a, b with
  | Value.num x, Value.num y => decide (x ≤ y)
  | _, _ => false

/-! ## Outlier trimming (`_convert_price_to_usd`, lines 140-143) -/

/-- The outlier-trimming tail of `_convert_price_to_usd`: compute the lower
and upper percentile of the current `price_usd` column and keep the rows
whose `price_usd` passes both inclusive masks. -/
def trimOutliers (pLo pHi : ℚ) (df : DataFrame) : Except String DataFrame :=
  let vals := df.rows.map (fun r => cell df.cols r "price_usd")
  match percentileV vals pLo, percentileV vals pHi with
  | Except.ok lo, Except.ok hi =>
      Except.ok ⟨df.cols,
        df.rows.filter (fun r =>
          cmpGeV (cell df.cols r "price_usd") lo &&
          cmpLeV (cell df.cols r "price_usd") hi)⟩
  | Except.error e, _ => Except.error e
  | _, Except.error e => Except.error e

/-! ## Configuration (`config/data.yaml`, consumed as plain values) -/

/-- The configuration values the pipeline consumes (`data_conf`): columns to
keep, excluded categories for column `l1`, required (non-NaN) columns,
near-duplicate key columns, and the outlier percentile band. -/
structure DataConf where
  keep_columns : List String
  drop_countries : List String
  drop_nan : List String
  drop_dup_keys : List String
  pct_lower : ℚ
  pct_upper : ℚ
deriving DecidableEq, Repr

/-! ## Row filtering (`_drop_rows`, lines 109-125) -/

/-- Does the row survive the category-exclusion rule
`~df["l1"].isin(countries)`? -/
def passCategory (cfg : DataConf) (cols : List String) (r : Row) : Bool :=
  ¬ (cell cols r "l1") ∈ cfg.drop_countries.map Value.str

/-- Does the row survive `dropna(subset = nan_cols, how = 'any')`? -/
def passRequired (cfg : DataConf) (cols : List String) (r : Row) : Bool :=
  cfg.drop_nan.all (fun c => cell cols r c != Value.na)

/-- Key projection used by `drop_duplicates(subset = keys)`. -/
def dupKey (cfg : DataConf) (cols : List String) (r : Row) : List Value :=
  cfg.drop_dup_keys.map (cell cols r)

/-- Step 1 of `_drop_rows`: drop rows of under-representative countries. -/
def dropRowsStep1 (cfg : DataConf) (df : DataFrame) : DataFrame :=
  ⟨df.cols, df.rows.filter (passCategory cfg df.cols)⟩

/-- Step 2 of `_drop_rows`: drop rows with NaN in any required column. -/
def dropRowsStep2 (cfg : DataConf) (df : DataFrame) : DataFrame :=
  ⟨df.cols, df.rows.filter (passRequired cfg df.cols)⟩

/-- Step 3 of `_drop_rows`: drop key-column near-duplicates, keeping the
first occurrence. -/
def dropRowsStep3 (cfg : DataConf) (df : DataFrame) : DataFrame :=
  ⟨df.cols, dedupBy (dupKey cfg df.cols) df.rows⟩

/-- `_drop_rows`: the three filters in source order. -/
def dropRows (cfg : DataConf) (df : DataFrame) : DataFrame :=
  dropRowsStep3 cfg (dropRowsStep2 cfg (dropRowsStep1 cfg df))

/-! ## Column operations -/

/-- `df[keep_columns]`: select the listed columns, in the listed order;
pandas raises `KeyError` when any requested label is absent. -/
def selectCols (df : DataFrame) (keep : List String) : Except String DataFrame :=
  if keep.all (fun c => c ∈ df.cols) then
    Except.ok ⟨keep, df.rows.map (fun r => keep.map (cell df.cols r))⟩
  else Except.error "KeyError: columns not found"

/-- Column assignment `df[c] = f(row)`: overwrite the column in place when
the label exists, otherwise append it as the last column. -/
def assignCol (df : DataFrame) (c : String) (f : Row → Value) : DataFrame :=
  match df.cols.indexOf? c with
  | some i => ⟨df.cols, df.rows.map (fun r => r.set i (f r))⟩
  | none => ⟨df.cols ++ [c], df.rows.map (fun r => r ++ [f r])⟩

/-- `df.drop(columns = cs)`: remove the listed columns; pandas raises
`KeyError` when any of them is absent. -/
def dropColsE (df : DataFrame) (cs : List String) : Except String DataFrame :=
  if cs.all (fun c => c ∈ df.cols) then
    Except.ok ⟨df.cols.filter (fun c => ¬ c ∈ cs),
      df.rows.map (fun r => ((df.cols.zip r).filter (fun p => ¬ p.1 ∈ cs)).map Prod.snd)⟩
  else Except.error "KeyError: columns not found"

/-! ## Currency normalization stage (`_convert_price_to_usd`, lines 127-145) -/

/-- `_convert_price_to_usd`: assign the `price_usd` column row-wise, drop
the `price` and `currency` columns, then trim the outlier band. -/
def convertPriceToUsd (pLo pHi : ℚ) (df : DataFrame) : Except String DataFrame :=
  let df1 := assignCol df "price_usd" (convertCell df.cols)
  match dropColsE df1 ["price", "currency"] with
  | Except.error e => Except.error e
  | Except.ok df2 => trimOutliers pLo pHi df2

/-- `clean_data`: select the kept columns, drop irrelevant rows, then
standardize the price. -/
def cleanData (cfg : DataConf) (df : DataFrame) : Except String DataFrame :=
  match selectCols df cfg.keep_columns with
  | Except.error e => Except.error e
  | Except.ok df1 => convertPriceToUsd cfg.pct_lower cfg.pct_upper (dropRows cfg df1)

/-! ## Ingestion (`ingest_data`, lines 61-75) and the wrangle/save flow -/

/-- `pd.concat(frames)` followed by `drop_duplicates()` on the row lists of
the input files: concatenate in file order preserving per-file row order,
then remove exact full-row duplicates keeping the first occurrence. -/
def ingestRows (frames : List (List Row)) : List Row :=
  dedupBy id frames.flatten

/-- `ingest_data` at the data-frame level (all input files share the column
set; the `id` index is not a data column). -/
def ingestDF (frames : List DataFrame) : DataFrame :=
  ⟨((frames.head?).map DataFrame.cols).getD [], ingestRows (frames.map DataFrame.rows)⟩

/-- `wrangle_data` together with `save_data`: ingest (the read step may fail
with an `InputReadError`, supplied here as an `Except` of the already-read
frames), clean, and only on success write the single output artifact. The
second component records the `(path, contents)` writes performed. -/
def wrangleData (cfg : DataConf) (path : String)
    (readRes : Except String (List DataFrame)) :
    Except String DataFrame × List (String × DataFrame) :=
  match readRes with
  | Except.error e => (Except.error e, [])
  | Except.ok frames =>
      match cleanData cfg (ingestDF frames) with
      | Except.error e => (Except.error e, [])
      | Except.ok out => (Except.ok out, [(path, out)])

/-! ## Reuse mode (`__post_init__`, lines 25-29, and `load_data`, lines 31-48) -/

/-- The artifact read performed by `__post_init__`:
`pd.read_csv(self.processed_data_path, index = False)`. `pandas.read_csv`
has no `index` parameter (`index = False` belongs to `DataFrame.to_csv`, as
used correctly in `save_data`), so the call raises `TypeError` regardless of
the file's contents. -/
def readCsvWithIndexKwarg (_fileContents : DataFrame) : Except String DataFrame :=
  Except.error "TypeError: read_csv() got an unexpected keyword argument index"

/-- `DataWrangler()` construction followed by `load_data(use_exist = True)`:
when the artifact exists, `__post_init__` performs the read above and the
loaded frame would be returned; when it does not exist, `self.df` is `None`
and `load_data` falls back to wrangling. -/
def loadDataReuse (artifactExists : Bool) (fileContents : DataFrame)
    (wrangled : Except String DataFrame) : Except String DataFrame :=
  if artifactExists then
    match readCsvWithIndexKwarg fileContents with
    | Except.error e => Except.error e
    | Except.ok df => Except.ok df
  else wrangled

/-! ## Spec-side definitions (refinement targets)

These two definitions follow the words of the specification, to be compared
with the definitions embedded from the source. -/

/-- Stated from the claim's words: the set of records that survive all three
Row Filter criteria applied independently to the pre-filter population and
intersected — category exclusion, required-column presence, and
"is a first occurrence of its key combination in the pre-filter
population". -/
def rowFilterIndependent (cfg : DataConf) (df : DataFrame) : DataFrame :=
  ⟨df.cols, (dedupBy (dupKey cfg df.cols) df.rows).filter
    (fun r => passCategory cfg df.cols r && passRequired cfg df.cols r)⟩

/-- Stated from the spec's words: the inclusive outlier band - the record's
normalized price is `≥` the `pLo`-th percentile value and `≤` the `pHi`-th
percentile value of the current normalized-price population (standard
linear-interpolation percentile). -/
def bandSpec (pLo pHi : ℚ) (df : DataFrame) (r : Row) : Bool :=
  let pop := df.rows.map (fun r => (cell df.cols r "price_usd").toQ)
  let v := (cell df.cols r "price_usd").toQ
  decide (percentile pop pLo ≤ v) && decide (v ≤ percentile pop pHi)

/-! ## Concrete data used by witnesses and counterexamples -/

/-- A one-column frame of five numeric prices `1 .. 5`. -/
def dfFive : DataFrame :=
  ⟨["price_usd"],
   [[Value.num 1], [Value.num 2], [Value.num 3], [Value.num 4], [Value.num 5]]⟩

/-- A one-column frame with a single missing normalized price. -/
def dfNa : DataFrame := ⟨["price_usd"], [[Value.na]]⟩

/-- A small configuration: keep three columns, no row-filter criteria, band
`[2.5, 97.5]`. -/
def cfgEx : DataConf := ⟨["l1", "price", "currency"], [], [], [], 2.5, 97.5⟩

/-- A raw one-row frame whose currency code "XXX" is outside the
exchange-rate table, with an extra column to be dropped by selection. -/
def dfRaw : DataFrame :=
  ⟨["l1", "price", "currency", "extra"],
   [[Value.str "PE", Value.num 100, Value.str "XXX", Value.str "z"]]⟩

/-- The cleaned counterpart of `dfRaw` under `cfgEx`: the lone record's
normalized price is missing, so the outlier masks drop it. -/
def dfRawOut : DataFrame := ⟨["l1", "price_usd"], []⟩

/-- A raw one-row frame priced in USD. -/
def dfU : DataFrame :=
  ⟨["l1", "price", "currency"], [[Value.str "PE", Value.num 100, Value.str "USD"]]⟩

/-- The result of the currency-normalization stage on `dfU`. -/
def dfUout : DataFrame := ⟨["l1", "price_usd"], [[Value.str "PE", Value.num 100]]⟩

/-- A configuration excluding country `"X"` with key column `lat`. -/
def cfgDup : DataConf := ⟨["l1", "lat"], ["X"], [], ["lat"], 0, 100⟩

/-- Two rows sharing the key column value, the first in an excluded
category. -/
def dfDup : DataFrame :=
  ⟨["l1", "lat"], [[Value.str "X", Value.num 1], [Value.str "Y", Value.num 1]]⟩

/-! ## Keep-first deduplication lemmas -/

theorem dedupByAux_sublist {α β : Type} [DecidableEq β] (f : α → β) :
    ∀ (xs : List α) (seen : List β), (dedupByAux f xs seen).Sublist xs := by
  intro xs
  induction xs with
  | nil => intro seen; simp [dedupByAux]
  | cons x xs ih =>
      intro seen
      by_cases h : f x ∈ seen
      · simp only [dedupByAux, if_pos h]
        exact (ih seen).cons x
      · simp only [dedupByAux, if_neg h]
        exact (ih (f x :: seen)).cons₂ x

theorem dedupBy_sublist {α β : Type} [DecidableEq β] (f : α → β) (xs : List α) :
    (dedupBy f xs).Sublist xs :=
  dedupByAux_sublist f xs []

theorem mem_dedupByAux_key {α β : Type} [DecidableEq β] (f : α → β) :
    ∀ (xs : List α) (seen : List β) (x : α),
      x ∈ dedupByAux f xs seen → f x ∉ seen := by
  intro xs
  induction xs with
  | nil => intro seen x hx; simp [dedupByAux] at hx
  | cons y ys ih =>
      intro seen x hx
      by_cases h : f y ∈ seen
      · rw [dedupByAux, if_pos h] at hx
        exact ih seen x hx
      · rw [dedupByAux, if_neg h] at hx
        rcases List.mem_cons.mp hx with rfl | hx
        · exact h
        · intro hmem
          exact ih (f y :: seen) x hx (List.mem_cons_of_mem _ hmem)

theorem pairwise_dedupByAux {α β : Type} [DecidableEq β] (f : α → β) :
    ∀ (xs : List α) (seen : List β),
      (dedupByAux f xs seen).Pairwise (fun a b => f a ≠ f b) := by
  intro xs
  induction xs with
  | nil => intro seen; simp [dedupByAux]
  | cons y ys ih =>
      intro seen
      by_cases h : f y ∈ seen
      · rw [dedupByAux, if_pos h]; exact ih seen
      · rw [dedupByAux, if_neg h]
        refine List.pairwise_cons.mpr ⟨?_, ih (f y :: seen)⟩
        intro b hb heq
        exact mem_dedupByAux_key f ys (f y :: seen) b hb (heq ▸ List.mem_cons_self _ _)

theorem pairwise_dedupBy {α β : Type} [DecidableEq β] (f : α → β) (xs : List α) :
    (dedupBy f xs).Pairwise (fun a b => f a ≠ f b) :=
  pairwise_dedupByAux f xs []

theorem dedupByAux_eq_self {α β : Type} [DecidableEq β] (f : α → β) :
    ∀ (xs : List α) (seen : List β),
      (∀ x ∈ xs, f x ∉ seen) → xs.Pairwise (fun a b => f a ≠ f b) →
      dedupByAux f xs seen = xs := by
  intro xs
  induction xs with
  | nil => intro seen _ _; rfl
  | cons y ys ih =>
      intro seen hseen hpw
      rw [dedupByAux, if_neg (hseen y (List.mem_cons_self _ _))]
      rcases List.pairwise_cons.mp hpw with ⟨hy, hys⟩
      refine congrArg (y :: ·) (ih (f y :: seen) ?_ hys)
      intro x hx
      intro hmem
      rcases List.mem_cons.mp hmem with h | h
      · exact hy x hx h.symm
      · exact hseen x (List.mem_cons_of_mem _ hx) h

theorem dedupBy_idem {α β : Type} [DecidableEq β] (f : α → β) (xs : List α) :
    dedupBy f (dedupBy f xs) = dedupBy f xs :=
  dedupByAux_eq_self f (dedupBy f xs) [] (by simp) (pairwise_dedupBy f xs)

theorem mem_dedupByAux_of_mem {α β : Type} [DecidableEq β] (f : α → β) :
    ∀ (xs : List α) (seen : List β) (x : α), x ∈ xs → f x ∉ seen →
      ∃ y ∈ dedupByAux f xs seen, f y = f x := by
  intro xs
  induction xs with
  | nil => intro seen x hx; simp at hx
  | cons y ys ih =>
      intro seen x hx hseen
      by_cases h : f y ∈ seen
      · rw [dedupByAux, if_pos h]
        rcases List.mem_cons.mp hx with rfl | hx
        · exact absurd h hseen
        · exact ih seen x hx hseen
      · rw [dedupByAux, if_neg h]
        rcases List.mem_cons.mp hx with rfl | hx
        · exact ⟨_, List.mem_cons_self _ _, rfl⟩
        · by_cases hk : f x = f y
          · exact ⟨y, List.mem_cons_self _ _, hk.symm⟩
          · rcases ih (f y :: seen) x hx (by simp [hk, hseen]) with ⟨z, hz, hzk⟩
            exact ⟨z, List.mem_cons_of_mem _ hz, hzk⟩

/-! ## Percentile lemmas -/

theorem percentile_zero (xs : List ℚ) :
    percentile xs 0 = (xs.insertionSort (· ≤ ·)).getD 0 0 := by
  simp [percentile]

theorem percentile_hundred (xs : List ℚ) (hne : xs ≠ []) :
    percentile xs 100 =
      (xs.insertionSort (· ≤ ·)).getD ((xs.insertionSort (· ≤ ·)).length - 1) 0 := by
  have hlen : (xs.insertionSort (· ≤ ·)).length = xs.length :=
    List.length_insertionSort _ _
  have hpos : 1 ≤ xs.length := List.length_pos.mpr hne
  have hcast : ((xs.insertionSort (· ≤ ·)).length : ℚ) - 1 =
      ((xs.length - 1 : ℕ) : ℚ) := by
    rw [hlen]
    push_cast [Nat.cast_sub hpos]
    ring
  simp only [percentile, hcast]
  have h100 : (100 : ℚ) * ((xs.length - 1 : ℕ) : ℚ) / 100 = ((xs.length - 1 : ℕ) : ℚ) := by
    field_simp
  rw [h100]
  simp [hlen]

theorem sorted_getD_zero_le {s : List ℚ} (hs : s.Sorted (· ≤ ·)) {x : ℚ}
    (hx : x ∈ s) : s.getD 0 0 ≤ x := by
  rcases List.mem_iff_getElem.mp hx with ⟨i, hi, rfl⟩
  have h0 : 0 < s.length := Nat.lt_of_le_of_lt (Nat.zero_le i) hi
  rw [List.getD_eq_getElem _ _ h0]
  rcases Nat.eq_zero_or_pos i with rfl | hpos
  · exact le_refl _
  · exact (List.pairwise_iff_getElem.mp hs) 0 i h0 hi hpos

theorem le_sorted_getD_last {s : List ℚ} (hs : s.Sorted (· ≤ ·)) {x : ℚ}
    (hx : x ∈ s) : x ≤ s.getD (s.length - 1) 0 := by
  rcases List.mem_iff_getElem.mp hx with ⟨i, hi, rfl⟩
  have hlast : s.length - 1 < s.length := by omega
  rw [List.getD_eq_getElem _ _ hlast]
  rcases Nat.lt_or_ge i (s.length - 1) with hlt | hge
  · exact (List.pairwise_iff_getElem.mp hs) i (s.length - 1) hi hlast hlt
  · have : i = s.length - 1 := by omega
    subst this
    exact le_refl _

theorem percentile_zero_le (xs : List ℚ) {x : ℚ} (hx : x ∈ xs) :
    percentile xs 0 ≤ x := by
  rw [percentile_zero]
  exact sorted_getD_zero_le (List.sorted_insertionSort _ xs)
    ((List.perm_insertionSort _ xs).mem_iff.mpr hx)

theorem le_percentile_hundred (xs : List ℚ) {x : ℚ} (hx : x ∈ xs) :
    x ≤ percentile xs 100 := by
  have hne : xs ≠ [] := List.ne_nil_of_mem hx
  rw [percentile_hundred xs hne]
  exact le_sorted_getD_last (List.sorted_insertionSort _ xs)
    ((List.perm_insertionSort _ xs).mem_iff.mpr hx)

/-! ## Concrete percentile evaluations -/

theorem sortFive : (([1, 2, 3, 4, 5] : List ℚ)).insertionSort (· ≤ ·) = [1, 2, 3, 4, 5] := by
  simp [List.insertionSort, List.orderedInsert]

theorem percentile_eval (xs : List ℚ) (q : ℚ) (s : List ℚ)
    (hs : xs.insertionSort (· ≤ ·) = s) (h : ℚ)
    (hh : q * ((s.length : ℚ) - 1) / 100 = h) :
    percentile xs q =
      s.getD (⌊h⌋).toNat 0 +
        (h - (⌊h⌋ : ℚ)) * (s.getD (⌈h⌉).toNat 0 - s.getD (⌊h⌋).toNat 0) := by
  simp only [percentile, hs, hh]

theorem percentile_singleton (v q : ℚ) : percentile [v] q = v := by
  rw [percentile_eval [v] q [v] (by simp [List.insertionSort, List.orderedInsert]) 0
    (by norm_num)]
  norm_num [List.getD]

theorem percentileFive25 : percentile [1, 2, 3, 4, 5] 25 = 2 := by
  rw [percentile_eval [1, 2, 3, 4, 5] 25 [1, 2, 3, 4, 5] sortFive 1 (by norm_num)]
  norm_num [List.getD]

theorem percentileFive75 : percentile [1, 2, 3, 4, 5] 75 = 4 := by
  rw [percentile_eval [1, 2, 3, 4, 5] 75 [1, 2, 3, 4, 5] sortFive 3 (by norm_num)]
  norm_num [List.getD]
  rfl

theorem filterFive :
    dfFive.rows.filter (bandSpec 25 75 dfFive) =
      [[Value.num 2], [Value.num 3], [Value.num 4]] := by
  have hpop : dfFive.rows.map (fun r => (cell dfFive.cols r "price_usd").toQ)
      = [1, 2, 3, 4, 5] := rfl
  have hc : ∀ v : ℚ, cell ["price_usd"] [Value.num v] "price_usd" = Value.num v :=
    fun _ => rfl
  have hcong : dfFive.rows.filter (bandSpec 25 75 dfFive)
      = dfFive.rows.filter (fun r =>
          decide ((2 : ℚ) ≤ (cell dfFive.cols r "price_usd").toQ) &&
          decide ((cell dfFive.cols r "price_usd").toQ ≤ (4 : ℚ))) := by
    refine List.filter_congr ?_
    intro r hr
    simp only [bandSpec, hpop, percentileFive25, percentileFive75]
  rw [hcong]
  norm_num [dfFive, List.filter, hc, Value.toQ]

/-! ## The trimming stage as a filter by the spec's band -/

theorem Value.toQ_num (q : ℚ) : (Value.num q).toQ = q := rfl

theorem percentileV_all_num (vals : List Value) (q : ℚ) (hne : vals ≠ [])
    (h : ∀ v ∈ vals, v.isNum = true) :
    percentileV vals q = Except.ok (Value.num (percentile (vals.map Value.toQ) q)) := by
  have hall : vals.all (fun v => v.isNum || v == Value.na) = true :=
    List.all_eq_true.mpr (fun v hv => by simp [h v hv])
  have hna : ¬ Value.na ∈ vals := fun hmem => by simpa [Value.isNum] using h _ hmem
  simp [percentileV, hne, hall, hna]

theorem trimOutliers_eq_filter (pLo pHi : ℚ) (df : DataFrame)
    (hne : df.rows ≠ [])
    (hnum : ∀ r ∈ df.rows, (cell df.cols r "price_usd").isNum = true) :
    trimOutliers pLo pHi df =
      Except.ok ⟨df.cols, df.rows.filter (bandSpec pLo pHi df)⟩ := by
  have hvne : df.rows.map (fun r => cell df.cols r "price_usd") ≠ [] := by
    simpa using hne
  have hv : ∀ v ∈ df.rows.map (fun r => cell df.cols r "price_usd"),
      v.isNum = true := by
    intro v hvm
    rcases List.mem_map.mp hvm with ⟨r, hr, rfl⟩
    exact hnum r hr
  simp only [trimOutliers, percentileV_all_num _ pLo hvne hv,
    percentileV_all_num _ pHi hvne hv]
  refine congrArg Except.ok (congrArg (DataFrame.mk df.cols) ?_)
  refine List.filter_congr ?_
  intro r hr
  rcases hr' : cell df.cols r "price_usd" with s | v | _
  · exact absurd (hnum r hr) (by simp [hr', Value.isNum])
  · simp only [bandSpec, cmpGeV, cmpLeV, hr', List.map_map, Function.comp_def,
      Value.toQ_num]
  · exact absurd (hnum r hr) (by simp [hr', Value.isNum])

theorem trimOutliers_singleton_num (pLo pHi : ℚ) (df : DataFrame) (r : Row) (v : ℚ)
    (hrs : df.rows = [r]) (hcell : cell df.cols r "price_usd" = Value.num v) :
    trimOutliers pLo pHi df = Except.ok df := by
  have hne : df.rows ≠ [] := by rw [hrs]; simp
  have hnum : ∀ x ∈ df.rows, (cell df.cols x "price_usd").isNum = true := by
    intro x hx
    rw [hrs] at hx
    rcases List.mem_singleton.mp hx with rfl
    simp [hcell, Value.isNum]
  rw [trimOutliers_eq_filter pLo pHi df hne hnum]
  refine congrArg Except.ok ?_
  have hband : bandSpec pLo pHi df r = true := by
    simp only [bandSpec, hrs, List.map_cons, List.map_nil, hcell, Value.toQ_num,
      percentile_singleton, Bool.and_eq_true, decide_eq_true_eq]
    exact ⟨le_refl v, le_refl v⟩
  have : df.rows.filter (bandSpec pLo pHi df) = df.rows := by
    rw [hrs]
    simp [hband]
  rw [this]

/-- Evaluation of the currency-normalization stage on the one-row USD
frame: the record survives trimming at any band, here `[2.5, 97.5]`. -/
theorem convertUSD_eval : convertPriceToUsd 2.5 97.5 dfU = Except.ok dfUout := by
  have hcc : convertCell dfU.cols [Value.str "PE", Value.num 100, Value.str "USD"]
      = Value.num 100 := by
    show Value.num ((100 : ℚ) * 1) = Value.num 100
    norm_num
  simp only [convertPriceToUsd]
  rw [show assignCol dfU "price_usd" (convertCell dfU.cols)
      = ⟨["l1", "price", "currency", "price_usd"],
         [[Value.str "PE", Value.num 100, Value.str "USD",
           convertCell dfU.cols [Value.str "PE", Value.num 100, Value.str "USD"]]]⟩ from rfl]
  rw [hcc]
  rw [show dropColsE
      ⟨["l1", "price", "currency", "price_usd"],
       [[Value.str "PE", Value.num 100, Value.str "USD", Value.num 100]]⟩
      ["price", "currency"]
      = Except.ok ⟨["l1", "price_usd"], [[Value.str "PE", Value.num 100]]⟩ from rfl]
  exact trimOutliers_singleton_num 2.5 97.5 dfUout [Value.str "PE", Value.num 100] 100
    rfl rfl

/-! ## Structural lemmas about the fallible stages -/

theorem cmpGeV_isNum {a b : Value} (h : cmpGeV a b = true) : a.isNum = true := by
  cases a <;> cases b <;> simp [cmpGeV, Value.isNum] at h ⊢

theorem trimOutliers_ok {pLo pHi : ℚ} {df out : DataFrame}
    (h : trimOutliers pLo pHi df = Except.ok out) :
    out.cols = df.cols ∧ ∀ r ∈ out.rows, (cell df.cols r "price_usd").isNum = true := by
  simp only [trimOutliers] at h
  cases h1 : percentileV (df.rows.map fun r => cell df.cols r "price_usd") pLo with
  | error e => rw [h1] at h; exact absurd h (by simp)
  | ok lo =>
      cases h2 : percentileV (df.rows.map fun r => cell df.cols r "price_usd") pHi with
      | error e => rw [h1, h2] at h; exact absurd h (by simp)
      | ok hi =>
          rw [h1, h2] at h
          injection h with h
          subst h
          refine ⟨rfl, ?_⟩
          intro r hr
          have hp := (List.mem_filter.mp hr).2
          exact cmpGeV_isNum ((Bool.and_eq_true _ _).mp hp).1

theorem selectCols_ok {df : DataFrame} {keep : List String} {out : DataFrame}
    (h : selectCols df keep = Except.ok out) : out.cols = keep := by
  unfold selectCols at h
  split at h
  · injection h with h
    exact h ▸ rfl
  · exact absurd h (by simp)

theorem dropColsE_ok {df : DataFrame} {cs : List String} {out : DataFrame}
    (h : dropColsE df cs = Except.ok out) :
    out.cols = df.cols.filter (fun c => ¬ c ∈ cs) := by
  unfold dropColsE at h
  split at h
  · injection h with h
    exact h ▸ rfl
  · exact absurd h (by simp)

theorem dropRows_cols (cfg : DataConf) (df : DataFrame) :
    (dropRows cfg df).cols = df.cols := rfl

theorem assignCol_cols (df : DataFrame) (c : String) (f : Row → Value) :
    (assignCol df c f).cols = if c ∈ df.cols then df.cols else df.cols ++ [c] := by
  unfold assignCol
  cases hidx : df.cols.indexOf? c with
  | some i =>
      have hmem : c ∈ df.cols := by
        by_contra hnot
        have hnone : df.cols.indexOf? c = none :=
          List.indexOf?_eq_none_iff.mpr (fun x hx => by
            simp only [beq_iff_eq]
            intro heq
            exact hnot (heq ▸ hx))
        rw [hnone] at hidx
        exact absurd hidx (by simp)
      rw [if_pos hmem]
  | none =>
      have hnot : ¬ c ∈ df.cols := by
        intro hmem
        have := List.indexOf?_eq_none_iff.mp hidx c hmem
        simp at this
      rw [if_neg hnot]

/-! ## Claims -/

/-- C2: `_convert_to_usd` maps amount 100 at code "PEN" to 28.63, and for
every code in the exchange-rate table it multiplies the amount by that
code's rate. -/
theorem c2_currency_conversion :
    convert_to_usd 100 "PEN" = some (28.63 : ℚ) ∧
    ∀ (a : ℚ) (c : String) (rate : ℚ), (c, rate) ∈ currency_dict →
      convert_to_usd a c = some (a * rate) := by
  constructor
  · show convert_to_usd 100 "PEN" = some (28.63 : ℚ)
    rw [show convert_to_usd 100 "PEN" = some ((100 : ℚ) * 0.2863) from rfl]
    norm_num
  · intro a c rate h
    fin_cases h <;> rfl

/-- C2 witness: the table rate for "ARS" applies multiplicatively. -/
theorem c2_currency_conversion_witness :
    convert_to_usd 100 "ARS" = some ((100 : ℚ) * 0.0143) :=
  c2_currency_conversion.2 100 "ARS" 0.0143 (by simp [currency_dict])

/-- C5: a currency code that is not a key of the exchange-rate table yields
`none` (Python `None`): no multiplier is applied and the raw amount is not
passed through. -/
theorem c5_unknown_currency (a : ℚ) (c : String)
    (h : ¬ c ∈ currency_dict.map Prod.fst) :
    convert_to_usd a c = none := by
  have h' : ¬ (c = "USD" ∨ c = "PEN" ∨ c = "ARS" ∨ c = "UYU" ∨ c = "COP") := by
    simpa [currency_dict] using h
  push_neg at h'
  obtain ⟨h1, h2, h3, h4, h5⟩ := h'
  have e1 : (c == "USD") = false := beq_eq_false_iff_ne.mpr h1
  have e2 : (c == "PEN") = false := beq_eq_false_iff_ne.mpr h2
  have e3 : (c == "ARS") = false := beq_eq_false_iff_ne.mpr h3
  have e4 : (c == "UYU") = false := beq_eq_false_iff_ne.mpr h4
  have e5 : (c == "COP") = false := beq_eq_false_iff_ne.mpr h5
  simp [convert_to_usd, currency_dict, List.lookup, e1, e2, e3, e4, e5]

/-- C5 witness: "BRL" is outside the table and converts to `none`. -/
theorem c5_unknown_currency_witness : convert_to_usd 100 "BRL" = none :=
  c5_unknown_currency 100 "BRL" (by decide)

/-- C7: ingestion concatenates the files' rows in order and removes exact
full-row duplicates keeping the first occurrence: the result has no two
fully-equal rows, deduplicating again changes nothing, and the result is an
order-preserving sublist of the concatenation containing exactly its row
set. -/
theorem c7_ingest_dedup (frames : List (List Row)) :
    (ingestRows frames).Nodup ∧
    dedupBy id (ingestRows frames) = ingestRows frames ∧
    (ingestRows frames).Sublist frames.flatten ∧
    ∀ r : Row, r ∈ ingestRows frames ↔ r ∈ frames.flatten := by
  refine ⟨?_, dedupBy_idem id frames.flatten, dedupBy_sublist id frames.flatten, ?_⟩
  · simpa [List.Nodup] using pairwise_dedupBy id frames.flatten
  · intro r
    constructor
    · exact fun h => (dedupBy_sublist id frames.flatten).subset h
    · intro h
      rcases mem_dedupByAux_of_mem id frames.flatten [] r h (by simp) with ⟨y, hy, hyk⟩
      have : y = r := hyk
      exact this ▸ hy

/-- C1 counterexample: on `dfDup` the Row Filter's output differs from the
claim's "three criteria applied independently to the pre-filter population
and intersected": the first-occurrence row of the shared key is removed by
the category rule, so the code keeps the second row, while the independent
key-dedup criterion keeps only the first. -/
theorem c1_row_filter_counterexample :
    dropRows cfgDup dfDup ≠ rowFilterIndependent cfgDup dfDup := by
  decide

/-- C1 amended: the category-exclusion and missing-value rules are pointwise
filters over the same population and commute, and the Row Filter equals
those two criteria applied independently and intersected, followed by the
first-occurrence key dedup applied to that already-filtered population (not
to the pre-filter population). -/
theorem c1_row_filter_amended (cfg : DataConf) (df : DataFrame) :
    dropRowsStep2 cfg (dropRowsStep1 cfg df) = dropRowsStep1 cfg (dropRowsStep2 cfg df) ∧
    dropRows cfg df = ⟨df.cols, dedupBy (dupKey cfg df.cols)
      (df.rows.filter (fun r => passCategory cfg df.cols r && passRequired cfg df.cols r))⟩ := by
  constructor
  · simp only [dropRowsStep1, dropRowsStep2]
    refine congrArg (DataFrame.mk df.cols) ?_
    rw [List.filter_filter, List.filter_filter]
    exact List.filter_congr (fun r _ => Bool.and_comm _ _)
  · simp only [dropRows, dropRowsStep1, dropRowsStep2, dropRowsStep3]
    refine congrArg (DataFrame.mk df.cols) ?_
    rw [List.filter_filter]
    exact congrArg (dedupBy (dupKey cfg df.cols))
      (List.filter_congr (fun r _ => Bool.and_comm _ _))

/-- C4: on a population of present (non-missing) normalized prices, the
Outlier Trimmer keeps exactly the rows whose price lies in the closed
percentile band of the spec (standard linear-interpolation percentiles,
boundary-inclusive on both ends). -/
theorem c4_outlier_band (pLo pHi : ℚ) (df : DataFrame)
    (hne : df.rows ≠ [])
    (hnum : ∀ r ∈ df.rows, (cell df.cols r "price_usd").isNum = true) :
    trimOutliers pLo pHi df =
      Except.ok ⟨df.cols, df.rows.filter (bandSpec pLo pHi df)⟩ :=
  trimOutliers_eq_filter pLo pHi df hne hnum

/-- C4 witness: on prices `1..5` with band `[25, 75]` the computed
boundaries are exactly `2` and `4`, and the boundary rows are retained. -/
theorem c4_outlier_band_witness :
    (trimOutliers 25 75 dfFive =
      Except.ok ⟨dfFive.cols, dfFive.rows.filter (bandSpec 25 75 dfFive)⟩) ∧
    dfFive.rows.filter (bandSpec 25 75 dfFive) =
      [[Value.num 2], [Value.num 3], [Value.num 4]] := by
  refine ⟨c4_outlier_band 25 75 dfFive (by decide) ?_, filterFive⟩
  intro r hr
  fin_cases hr <;> rfl

/-- C6 counterexample: a dataset containing one record with a missing
normalized price (a currency code outside the table): `np.percentile` of the
population is `NaN`, every comparison with `NaN` is false, and the trim with
the full band `[0, 100]` empties the dataset instead of leaving the row
count unchanged. -/
theorem c6_noop_counterexample :
    trimOutliers 0 100 dfNa = Except.ok ⟨["price_usd"], []⟩ ∧
    dfNa.rows.length = 1 :=
  ⟨rfl, rfl⟩

/-- C6 amended: on a nonempty dataset all of whose normalized prices are
present, the Outlier Trimmer with the full band `[0, 100]` is the identity
on the dataset (exactly: percentile 0 is the minimum and percentile 100 the
maximum of the population). -/
theorem c6_noop_band (df : DataFrame) (hne : df.rows ≠ [])
    (hnum : ∀ r ∈ df.rows, (cell df.cols r "price_usd").isNum = true) :
    trimOutliers 0 100 df = Except.ok df := by
  rw [trimOutliers_eq_filter 0 100 df hne hnum]
  refine congrArg Except.ok ?_
  have hfilter : df.rows.filter (bandSpec 0 100 df) = df.rows := by
    apply List.filter_eq_self.mpr
    intro r hr
    have hv : (cell df.cols r "price_usd").toQ ∈
        df.rows.map (fun r => (cell df.cols r "price_usd").toQ) :=
      List.mem_map_of_mem _ hr
    simp only [bandSpec, Bool.and_eq_true, decide_eq_true_eq]
    exact ⟨percentile_zero_le _ hv, le_percentile_hundred _ hv⟩
  rw [hfilter]

/-- C6 witness: the full band is the identity on the five-price dataset. -/
theorem c6_noop_band_witness : trimOutliers 0 100 dfFive = Except.ok dfFive :=
  c6_noop_band dfFive (by decide) (by intro r hr; fin_cases hr <;> rfl)

/-- C3: whenever `clean_data` succeeds, its output schema has exactly one
`price_usd` column, neither `price` nor `currency`, and its column set is
exactly the configured kept columns minus `{price, currency}` plus
`price_usd`. -/
theorem c3_schema (cfg : DataConf) (df out : DataFrame)
    (hnd : cfg.keep_columns.Nodup)
    (h : cleanData cfg df = Except.ok out) :
    out.cols.count "price_usd" = 1 ∧
    ¬ "price" ∈ out.cols ∧ ¬ "currency" ∈ out.cols ∧
    ∀ c : String, c ∈ out.cols ↔
      ((c ∈ cfg.keep_columns ∧ c ≠ "price" ∧ c ≠ "currency") ∨ c = "price_usd") := by
  unfold cleanData at h
  cases hsel : selectCols df cfg.keep_columns with
  | error e => rw [hsel] at h; exact absurd h (by simp)
  | ok df1 =>
      rw [hsel] at h
      have hc1 : df1.cols = cfg.keep_columns := selectCols_ok hsel
      simp only [convertPriceToUsd] at h
      cases hdrop : dropColsE
          (assignCol (dropRows cfg df1) "price_usd" (convertCell (dropRows cfg df1).cols))
          ["price", "currency"] with
      | error e => rw [hdrop] at h; exact absurd h (by simp)
      | ok df3 =>
          rw [hdrop] at h
          have hc4 : out.cols = df3.cols := (trimOutliers_ok h).1
          have hc3 : df3.cols =
              (if "price_usd" ∈ cfg.keep_columns then cfg.keep_columns
               else cfg.keep_columns ++ ["price_usd"]).filter
                (fun c => ¬ c ∈ (["price", "currency"] : List String)) := by
            rw [dropColsE_ok hdrop, assignCol_cols, dropRows_cols, hc1]
          rw [hc4, hc3]
          have hne1 : ("price_usd" : String) ≠ "price" := by decide
          have hne2 : ("price_usd" : String) ≠ "currency" := by decide
          by_cases hpu : "price_usd" ∈ cfg.keep_columns
          · rw [if_pos hpu]
            refine ⟨?_, ?_, ?_, ?_⟩
            · rw [List.count_filter (by simp)]
              exact List.count_eq_one_of_mem hnd hpu
            · simp [List.mem_filter]
            · simp [List.mem_filter]
            · intro c
              simp only [List.mem_filter, decide_eq_true_eq, List.mem_cons,
                List.mem_singleton, List.not_mem_nil, or_false, not_or]
              constructor
              · rintro ⟨hcK, hp, hc⟩
                exact Or.inl ⟨hcK, hp, hc⟩
              · rintro (⟨hcK, hp, hc⟩ | rfl)
                · exact ⟨hcK, hp, hc⟩
                · exact ⟨hpu, hne1, hne2⟩
          · rw [if_neg hpu]
            refine ⟨?_, ?_, ?_, ?_⟩
            · rw [List.count_filter (by simp)]
              rw [List.count_append, List.count_eq_zero_of_not_mem hpu]
              simp
            · simp [List.mem_filter]
            · simp [List.mem_filter]
            · intro c
              simp only [List.mem_filter, decide_eq_true_eq, List.mem_append,
                List.mem_cons, List.mem_singleton, List.not_mem_nil, or_false, not_or]
              constructor
              · rintro ⟨hcK | rfl, hp, hc⟩
                · exact Or.inl ⟨hcK, hp, hc⟩
                · exact Or.inr rfl
              · rintro (⟨hcK, hp, hc⟩ | rfl)
                · exact ⟨Or.inl hcK, hp, hc⟩
                · exact ⟨Or.inr rfl, hne1, hne2⟩

/-- C3 witness: on `cfgEx` and `dfRaw` the clean stage succeeds and the
output schema is `kept minus price and currency plus price_usd`. -/
theorem c3_schema_witness :
    dfRawOut.cols.count "price_usd" = 1 ∧
    ¬ "price" ∈ dfRawOut.cols ∧ ¬ "currency" ∈ dfRawOut.cols ∧
    ("l1" ∈ dfRawOut.cols ↔
      (("l1" ∈ cfgEx.keep_columns ∧ "l1" ≠ "price" ∧ "l1" ≠ "currency") ∨
        ("l1" : String) = "price_usd")) := by
  obtain ⟨h1, h2, h3, h4⟩ := c3_schema cfgEx dfRaw dfRawOut (by decide) rfl
  exact ⟨h1, h2, h3, h4 "l1"⟩

/-- C9: the wrangle/save flow is atomic: when any stage before persistence
fails, the write list is empty (no artifact is written); when the pipeline
succeeds, exactly one artifact is written, holding the pipeline's output. -/
theorem c9_atomic_write (cfg : DataConf) (path : String)
    (rr : Except String (List DataFrame)) :
    (∀ e, (wrangleData cfg path rr).1 = Except.error e →
      (wrangleData cfg path rr).2 = []) ∧
    (∀ d, (wrangleData cfg path rr).1 = Except.ok d →
      (wrangleData cfg path rr).2 = [(path, d)]) := by
  cases rr with
  | error e => simp [wrangleData]
  | ok frames =>
      cases h : cleanData cfg (ingestDF frames) with
      | error e =>
          refine ⟨fun e' _ => ?_, fun d hd => ?_⟩
          · simp [wrangleData, h]
          · rw [show (wrangleData cfg path (Except.ok frames)).1 = Except.error e by
              simp [wrangleData, h]] at hd
            exact absurd hd (by simp)
      | ok out =>
          refine ⟨fun e' he => ?_, fun d hd => ?_⟩
          · rw [show (wrangleData cfg path (Except.ok frames)).1 = Except.ok out by
              simp [wrangleData, h]] at he
            exact absurd he (by simp)
          · rw [show (wrangleData cfg path (Except.ok frames)).1 = Except.ok out by
              simp [wrangleData, h]] at hd
            injection hd with hd
            subst hd
            simp [wrangleData, h]

/-- C9 witness: an ingestion read error yields no write. -/
theorem c9_atomic_write_witness :
    (wrangleData cfgEx "data/processed/data.csv"
      (Except.error "InputReadError: missing raw file")).2 = [] :=
  (c9_atomic_write cfgEx "data/processed/data.csv"
    (Except.error "InputReadError: missing raw file")).1
    "InputReadError: missing raw file" rfl

/-- C10: every record surviving the combined normalize-and-trim stage has a
present (numeric, non-missing) normalized price; in particular a record
whose currency code fell outside the table (missing `price_usd`) is never
in the output. -/
theorem c10_survivors_have_price (pLo pHi : ℚ) (df out : DataFrame)
    (h : convertPriceToUsd pLo pHi df = Except.ok out) :
    ∀ r ∈ out.rows, (cell out.cols r "price_usd").isNum = true := by
  simp only [convertPriceToUsd] at h
  cases hd : dropColsE (assignCol df "price_usd" (convertCell df.cols))
      ["price", "currency"] with
  | error e => rw [hd] at h; exact absurd h (by simp)
  | ok df2 =>
      rw [hd] at h
      obtain ⟨hcols, hnum⟩ := trimOutliers_ok h
      intro r hr
      rw [hcols]
      exact hnum r hr

/-- C10 witness: the USD record survives normalization with a present
numeric normalized price. -/
theorem c10_survivors_have_price_witness :
    (cell dfUout.cols [Value.str "PE", Value.num 100] "price_usd").isNum = true :=
  c10_survivors_have_price 2.5 97.5 dfU dfUout convertUSD_eval
    [Value.str "PE", Value.num 100] (by decide)

/-- C8: when the output artifact exists, reuse mode does not return the
existing artifact's dataset: the `__post_init__` read calls
`pandas.read_csv` with the invalid keyword argument `index`, so construction
raises a `TypeError` (for any artifact contents) and `load_data` is never
reached, contradicting `load_data`'s own docstring. -/
theorem c8_reuse_mode_raises (fileContents : DataFrame)
    (wrangled : Except String DataFrame) :
    loadDataReuse true fileContents wrangled =
      Except.error "TypeError: read_csv() got an unexpected keyword argument index" :=
  rfl

end Wrangler
